import Mathlib

/-!
Shallow embedding of the interactive chess session logic of `app.py`
(Streamlit chess game).  The chess rules engine (the `python-chess`
library, the spec's "Position Oracle") is an external collaborator:
it is modelled abstractly as an `Oracle`, a pair of functions from the
move history to the list of legal moves and to the game-over flag.
The repository's own code — square parsing, UCI move parsing, the
legal-move index `get_legal_moves_for_square`, and the Streamlit
session handlers (reset, undo, AI move block, drag-move handling,
manual move input) — is embedded faithfully below.
-/

namespace ChessApp

/-- File names, as in python-chess `FILE_NAMES` (files a..h, index 0..7). -/
def fileNames : List Char := ['a', 'b', 'c', 'd', 'e', 'f', 'g', 'h']

/-- Rank names, as in python-chess `RANK_NAMES` (ranks 1..8, index 0..7). -/
def rankNames : List Char := ['1', '2', '3', '4', '5', '6', '7', '8']

/-- `chess.square_name(sq)`: file letter followed by rank digit; square
index is `rank * 8 + file`. -/
def square_name (sq : Nat) : String :=
  String.mk [fileNames.getD (sq % 8) 'a', rankNames.getD (sq / 8) '1']

/-- `chess.SQUARE_NAMES`: the 64 square names in index order a1, b1, ..., h8. -/
def squareNames : List String := (List.range 64).map square_name

/-- Python `list.index` returning the first index of `s`, as an `Option`
(`none` models the `ValueError` that `list.index` raises when absent). -/
def indexOfFrom (l : List String) (s : String) (i : Nat) : Option Nat :=
  match l with
  | [] => none
  | x :: xs => if x = s then some i else indexOfFrom xs s (i + 1)

/-- `chess.parse_square(name)` = `SQUARE_NAMES.index(name)`; `none` models
the raised `ValueError` on an invalid square name. -/
def parse_square (s : String) : Option Nat :=
  indexOfFrom squareNames s 0

/-- python-chess `PIECE_SYMBOLS = [None, "p", "n", "b", "r", "q", "k"]`,
restricted to the actual characters; `PIECE_SYMBOLS.index(c)` is the
position of `c` in this list plus one (the leading `None` never matches
a character). -/
def pieceSymbols : List Char := ['p', 'n', 'b', 'r', 'q', 'k']

/-- `PIECE_SYMBOLS.index(c)` as an `Option`: piece type 1..6 (pawn..king),
`none` models the raised `ValueError`. -/
def parsePieceSymbol (c : Char) : Option Nat :=
  (indexOfFrom (pieceSymbols.map (String.mk [·])) (String.mk [c]) 0).map (· + 1)

/-- `chess.Move`: origin square, destination square, optional promotion
piece type, optional drop piece type (drops only arise from the `@`
branch of `from_uci` and never occur among a standard board's legal
moves). -/
structure Move where
  from_square : Nat
  to_square : Nat
  promotion : Option Nat
  dropped : Option Nat
deriving DecidableEq, Repr

/-- `chess.Move.null()`. -/
def Move.null : Move := ⟨0, 0, none, none⟩

/-- `chess.Move.from_uci(uci)`.  `Except.error` models the raised
`InvalidMoveError` (a subclass of `ValueError`); the message mirrors the
source's.  Mirrors the four branches of the source: the null move
`"0000"`, the drop branch (length 4 with `@` second), the main branch
(length 4 or 5: two square names and an optional promotion letter,
rejecting equal origin and destination), and the length error. -/
def Move.from_uci (uci : String) : Except String Move :=
  if uci = "0000" then
    Except.ok Move.null
  else if uci.data.length = 4 ∧ uci.data.getD 1 ' ' = '@' then
    match parsePieceSymbol (uci.data.getD 0 ' ').toLower, parse_square (String.mk (uci.data.drop 2)) with
    | some d, some sq => Except.ok ⟨sq, sq, none, some d⟩
    | _, _ => Except.error ("invalid uci: " ++ uci)
  else if 4 ≤ uci.data.length ∧ uci.data.length ≤ 5 then
    match parse_square (String.mk (uci.data.take 2)),
          parse_square (String.mk ((uci.data.drop 2).take 2)),
          (if uci.data.length = 5 then (parsePieceSymbol (uci.data.getD 4 ' ')).map some else some none) with
    | some f, some t, some p =>
      if f = t then Except.error ("invalid uci (use 0000 for null moves): " ++ uci)
      else Except.ok ⟨f, t, p, none⟩
    | _, _, _ => Except.error ("invalid uci: " ++ uci)
  else
    Except.error ("expected uci string to be of length 4 or 5: " ++ uci)

/-- The Position Oracle (the external `python-chess` rules engine),
abstracted as its answers along every move history: `legal h` is
`board.legal_moves` after pushing the moves of `h` from the starting
position, and `gameOver h` is `board.is_game_over()` there. -/
structure Oracle where
  legal : List Move → List Move
  gameOver : List Move → Bool

/-- `chess.Board` as the session uses it: its `move_stack` (the position
itself lives in the Oracle, keyed by the stack). -/
structure Board where
  stack : List Move
deriving DecidableEq, Repr

/-- `board.push(move)`. -/
def Board.push (b : Board) (m : Move) : Board := ⟨b.stack ++ [m]⟩

/-- `board.pop()` (the resulting board; the app discards the popped move). -/
def Board.pop (b : Board) : Board := ⟨b.stack.dropLast⟩

/-- `board.legal_moves` under Oracle `O`. -/
def Board.legal_moves (O : Oracle) (b : Board) : List Move := O.legal b.stack

/-- `board.is_game_over()` under Oracle `O`. -/
def Board.is_game_over (O : Oracle) (b : Board) : Bool := O.gameOver b.stack

/-- `get_legal_moves_for_square(board, square)` from `app.py`: parse the
square (a raised `ValueError` propagates, modelled by `Except.error`),
then loop over `board.legal_moves` appending the destination name of
every move whose origin is that square. -/
def get_legal_moves_for_square (O : Oracle) (board : Board) (square : String) :
    Except String (List String) :=
  match parse_square square with
  | none => Except.error "ValueError: invalid square name"
  | some square_obj =>
    Except.ok ((Board.legal_moves O board).foldl
      (fun legal_moves move =>
        if move.from_square = square_obj then legal_moves ++ [square_name move.to_square]
        else legal_moves)
      [])

/-- Modelled from the spec (§4.2, §8): the Legal-Move Index's answer for an
origin square — the destination-square names of the Oracle's legal moves
whose origin is that square, in the Oracle's enumeration order. -/
def specLegalDestinations (O : Oracle) (b : Board) (sq : Nat) : List String :=
  ((Board.legal_moves O b).filter (fun m => m.from_square = sq)).map
    (fun m => square_name m.to_square)

/-- The Streamlit session state of `app.py`: `st.session_state.board`,
`st.session_state.player_turn`, `st.session_state.last_error`,
`st.session_state.move_count` (a Python int, so modelled as `Int`). -/
structure SessionState where
  board : Board
  player_turn : Bool
  last_error : Option String
  move_count : Int
deriving DecidableEq, Repr

/-- The session state produced by the initialization block and by the
Reset Game button: fresh `chess.Board()`, White to play, no error,
counter zero. -/
def initialSession : SessionState := ⟨⟨[]⟩, true, none, 0⟩

/-- The Undo Move button handler: if `board.move_stack` is non-empty,
pop the last move, flip `player_turn`, and decrement `move_count`;
otherwise nothing happens.  `last_error` is not touched. -/
def undo_handler (st : SessionState) : SessionState :=
  if st.board.stack = [] then st
  else ⟨st.board.pop, !st.player_turn, st.last_error, st.move_count - 1⟩

/-- The module-level AI move block, given the engine's `get_best_move()`
result (`none` when the engine offered no move).  Returns the new
session state together with the error message displayed by `st.error`
(if any).  The suggested move is parsed with `chess.Move.from_uci`
(a raised exception is caught and shown as "AI error: ..."), then
checked against `board.legal_moves` before being pushed; an illegal
suggestion displays "Invalid AI move!" and changes nothing.  On success
the board is pushed and `move_count` incremented — `player_turn` and
`last_error` are not touched. -/
def ai_move_block (O : Oracle) (st : SessionState) (best_move : Option String) :
    SessionState × Option String :=
  match best_move with
  | none => (st, none)
  | some bm =>
    match Move.from_uci bm with
    | Except.error e => (st, some ("AI error: " ++ e))
    | Except.ok move =>
      if move ∈ Board.legal_moves O st.board then
        (⟨st.board.push move, st.player_turn, st.last_error, st.move_count + 1⟩, none)
      else
        (st, some "Invalid AI move!")

/-- The module-level drag-move handling, given the raw string from the
board component.  Returns the new session state and the displayed error.
An empty string (falsy `move`) does nothing; a string shorter than four
characters passes the `len(move) >= 4` guard falsy and nothing happens
(no exception is raised, so the `except` branch is not taken either).
Otherwise `chess.Move.from_uci(move)` is called: a raised exception is
caught, setting `last_error` to "Invalid move format: ..."; a parsed
move is checked against `board.legal_moves`: if legal it is pushed,
`player_turn` flipped, `last_error` cleared and `move_count`
incremented; if not, `last_error` is set to "Illegal move: ...". -/
def drag_move_handling (O : Oracle) (st : SessionState) (move : String) :
    SessionState × Option String :=
  if move = "" then (st, none)
  else if move.data.length < 4 then (st, none)
  else
    match Move.from_uci move with
    | Except.error _ =>
      (⟨st.board, st.player_turn, some ("Invalid move format: " ++ move), st.move_count⟩,
       some ("Invalid move format: " ++ move))
    | Except.ok chess_move =>
      if chess_move ∈ Board.legal_moves O st.board then
        (⟨st.board.push chess_move, !st.player_turn, none, st.move_count + 1⟩, none)
      else
        (⟨st.board, st.player_turn, some ("Illegal move: " ++ move), st.move_count⟩,
         some ("Illegal move: " ++ move))

/-- The manual move input handling, given the text-input string.  An
empty string (falsy `move_input`) does nothing.  Otherwise
`chess.Move.from_uci(move_input)` is tried: a raised `ValueError` is
caught, displaying "Invalid move format! ..."; a parsed move is checked
against `board.legal_moves`: if legal it is pushed, `player_turn`
flipped, `last_error` cleared and `move_count` incremented; if not,
"Illegal move!" is displayed — note that neither failure branch writes
`st.session_state.last_error`. -/
def manual_move_handling (O : Oracle) (st : SessionState) (move_input : String) :
    SessionState × Option String :=
  if move_input = "" then (st, none)
  else
    match Move.from_uci move_input with
    | Except.error _ =>
      (st, some "Invalid move format! Use format like e2e4 or e7e8q")
    | Except.ok chess_move =>
      if chess_move ∈ Board.legal_moves O st.board then
        (⟨st.board.push chess_move, !st.player_turn, none, st.move_count + 1⟩, none)
      else
        (st, some "Illegal move!")

/-! Concrete fixtures: Oracle instances recording the answers that the
external rules engine gives on a few positions used by the repository
tests (the starting position, the promotion position of
`test_pawn_promotion`, and the fools-mate line of
`test_checkmate_detection`).  Square indices follow python-chess:
`square = rank * 8 + file`, so e2 = 12, e3 = 20, e4 = 28, e5 = 36. -/

/-- The 20 legal moves of the starting position: pawn single and double
pushes and the four knight moves. -/
def startLegalMoves : List Move :=
  ((List.range 8).map (fun f => ⟨8 + f, 16 + f, none, none⟩)) ++
  ((List.range 8).map (fun f => ⟨8 + f, 24 + f, none, none⟩)) ++
  [⟨1, 16, none, none⟩, ⟨1, 18, none, none⟩, ⟨6, 21, none, none⟩, ⟨6, 23, none, none⟩]

/-- The move 1. e2e4. -/
def mE2E4 : Move := ⟨12, 28, none, none⟩

/-- The 20 legal replies of Black after 1. e2e4: pawn single and double
pushes and the four knight moves. -/
def blackReplyMoves : List Move :=
  ((List.range 8).map (fun f => ⟨48 + f, 40 + f, none, none⟩)) ++
  ((List.range 8).map (fun f => ⟨48 + f, 32 + f, none, none⟩)) ++
  [⟨57, 40, none, none⟩, ⟨57, 42, none, none⟩, ⟨62, 45, none, none⟩, ⟨62, 47, none, none⟩]

/-- Oracle recording the rules-engine answers from the starting
position: the 20 opening moves, the 20 replies after 1. e2e4, and (for
the histories the theorems below actually visit) no further moves; no
visited position is terminal. -/
def startOracle : Oracle where
  legal := fun h => if h = [] then startLegalMoves else if h = [mE2E4] then blackReplyMoves else []
  gameOver := fun _ => false

/-- The promotion position of `test_pawn_promotion`
(FEN `8/P7/8/8/8/8/8/k6K w - - 0 1`): White pawn a7 (square 48), White
king h1 (7), Black king a1 (0).  Legal moves: the four promotions
a7a8q/r/b/n (a8 = 56; piece types q=5, r=4, b=3, n=2) and the king
moves h1g1, h1g2, h1h2. -/
def promoLegalMoves : List Move :=
  [⟨48, 56, some 5, none⟩, ⟨48, 56, some 4, none⟩, ⟨48, 56, some 3, none⟩,
   ⟨48, 56, some 2, none⟩, ⟨7, 6, none, none⟩, ⟨7, 14, none, none⟩, ⟨7, 15, none, none⟩]

/-- Oracle for the promotion position: the initial history is the
position above; the theorems below only consult the empty history. -/
def promoOracle : Oracle where
  legal := fun h => if h = [] then promoLegalMoves else []
  gameOver := fun _ => false

/-- The fools-mate line f2f3 e7e5 g2g4 d8h4 of `test_checkmate_detection`
(f2 = 13, f3 = 21, e7 = 52, e5 = 36, g2 = 14, g4 = 30, d8 = 59, h4 = 31). -/
def foolsLine : List Move :=
  [⟨13, 21, none, none⟩, ⟨52, 36, none, none⟩, ⟨14, 30, none, none⟩, ⟨59, 31, none, none⟩]

/-- Oracle along the fools-mate line: after the four moves the position
is checkmate (no legal moves, game over); before that it is not
terminal.  The `legal` field lists the next line move (a stand-in for
the full reply list, which the theorems below never consult). -/
def foolsOracle : Oracle where
  legal := fun h => if 4 ≤ h.length then [] else [foolsLine.getD h.length Move.null]
  gameOver := fun h => decide (4 ≤ h.length)

/-- One user/engine interaction driving a Streamlit rerun of the script. -/
inductive Event where
  | reset : Event
  | undo : Event
  | drag : String → Event
  | manual : String → Event
  | ai : Option String → Event
deriving DecidableEq, Repr

/-- One rerun of the script body on one interaction.  The sidebar's
Reset Game and Undo Move buttons are processed before the game-over
check, so they act in every state; the AI move block, the drag-move
handling and the manual move input all live in the `else` branch of
`if board.is_game_over()`, so they do nothing on a terminal position
(the game-over branch only renders the final board). -/
def step (O : Oracle) (st : SessionState) (e : Event) : SessionState :=
  match e with
  | Event.reset => initialSession
  | Event.undo => undo_handler st
  | Event.drag s => if Board.is_game_over O st.board then st else (drag_move_handling O st s).1
  | Event.manual s => if Board.is_game_over O st.board then st else (manual_move_handling O st s).1
  | Event.ai b => if Board.is_game_over O st.board then st else (ai_move_block O st b).1

/-! Helper lemmas. -/

/-- The accumulating loop of `get_legal_moves_for_square` collects, in
order, the destination names of the moves passing the origin test. -/
theorem foldl_filter_map_aux (l : List Move) (sq : Nat) (acc : List String) :
    l.foldl (fun legal_moves move =>
      if move.from_square = sq then legal_moves ++ [square_name move.to_square]
      else legal_moves) acc
      = acc ++ (l.filter (fun m => m.from_square = sq)).map (fun m => square_name m.to_square) := by
  induction l generalizing acc with
  | nil => simp
  | cons x xs ih =>
    by_cases hx : x.from_square = sq
    · simp [List.foldl_cons, hx, ih, List.filter_cons]
    · simp [List.foldl_cons, hx, ih, List.filter_cons]

/-- Python `list.index` (as `indexOfFrom`) finds no index exactly when
the element is absent. -/
theorem indexOfFrom_eq_none_iff (l : List String) (s : String) (i : Nat) :
    indexOfFrom l s i = none ↔ s ∉ l := by
  induction l generalizing i with
  | nil => simp [indexOfFrom]
  | cons x xs ih =>
    by_cases hx : x = s
    · simp [indexOfFrom, hx]
    · simp only [indexOfFrom, if_neg hx, ih, List.mem_cons]
      constructor
      · intro hns hor
        rcases hor with h1 | h2
        · exact hx h1.symm
        · exact hns h2
      · intro hn hmem
        exact hn (Or.inr hmem)

/-- `chess.parse_square` fails exactly on strings that are not among the
64 square names. -/
theorem parse_square_eq_none_iff (s : String) : parse_square s = none ↔ s ∉ squareNames :=
  indexOfFrom_eq_none_iff squareNames s 0

/-- On a successfully parsed square the index lookup computes the
spec-side destination list. -/
theorem get_legal_moves_eq_of_parse (O : Oracle) (b : Board) {s : String} {sq : Nat}
    (hp : parse_square s = some sq) :
    get_legal_moves_for_square O b s = Except.ok (specLegalDestinations O b sq) := by
  unfold get_legal_moves_for_square
  rw [hp]
  dsimp only
  rw [foldl_filter_map_aux]
  simp [specLegalDestinations]

/-- C1: for every position and origin square, `get_legal_moves_for_square`
returns exactly the destination-square names of the Oracle legal moves
whose origin is that square, in the Oracle enumeration order; and a
square with no legal moves (empty, wrong side, or pinned/blocked) yields
the empty list rather than an error. -/
theorem getLegalMoves_eq_oracle_destinations :
    ∀ (O : Oracle) (b : Board) (s : String) (sq : Nat),
      parse_square s = some sq →
      get_legal_moves_for_square O b s = Except.ok (specLegalDestinations O b sq) ∧
      (∀ d, d ∈ specLegalDestinations O b sq ↔
        ∃ m, m ∈ Board.legal_moves O b ∧ m.from_square = sq ∧ d = square_name m.to_square) ∧
      ((∀ m ∈ Board.legal_moves O b, m.from_square ≠ sq) →
        get_legal_moves_for_square O b s = Except.ok []) := by
  intro O b s sq h
  have h1 : get_legal_moves_for_square O b s = Except.ok (specLegalDestinations O b sq) :=
    get_legal_moves_eq_of_parse O b h
  refine ⟨h1, ?_, ?_⟩
  · intro d
    simp only [specLegalDestinations, List.mem_map, List.mem_filter, decide_eq_true_eq]
    constructor
    · rintro ⟨m, ⟨hm, hsq⟩, hd⟩
      exact ⟨m, hm, hsq, hd.symm⟩
    · rintro ⟨m, hm, hsq, hd⟩
      exact ⟨m, ⟨hm, hsq⟩, hd.symm⟩
  · intro hnone
    have hfil : (Board.legal_moves O b).filter (fun m => m.from_square = sq) = [] := by
      rw [List.filter_eq_nil_iff]
      intro m hm
      simpa using hnone m hm
    rw [h1]
    simp [specLegalDestinations, hfil]

/-- Witness for C1 at the starting position and origin e2 (square 12):
the index lists exactly `["e3", "e4"]`. -/
theorem getLegalMoves_eq_oracle_destinations_witness :
    get_legal_moves_for_square startOracle ⟨[]⟩ "e2" = Except.ok ["e3", "e4"] := by
  have h := getLegalMoves_eq_oracle_destinations startOracle ⟨[]⟩ "e2" 12 (by decide)
  exact h.1.trans (by rfl)

/-- C10: `get_legal_moves_for_square` returns normally (a possibly empty
list) on each of the 64 valid square names and propagates the
square-parsing failure on every other string — it never converts an
invalid name into an empty list. -/
theorem getLegalMoves_total_on_squares :
    ∀ (O : Oracle) (b : Board) (s : String),
      (s ∈ squareNames → ∃ l, get_legal_moves_for_square O b s = Except.ok l) ∧
      (s ∉ squareNames →
        get_legal_moves_for_square O b s = Except.error "ValueError: invalid square name") := by
  intro O b s
  constructor
  · intro hs
    cases hp : parse_square s with
    | none => exact absurd ((parse_square_eq_none_iff s).mp hp) (not_not.mpr hs)
    | some sq => exact ⟨_, get_legal_moves_eq_of_parse O b hp⟩
  · intro hs
    have hp : parse_square s = none := (parse_square_eq_none_iff s).mpr hs
    unfold get_legal_moves_for_square
    rw [hp]

/-- Witness for C10: the valid name e4 yields a normal (empty) result on
the starting position, while the invalid name z9 yields the error. -/
theorem getLegalMoves_total_on_squares_witness :
    (∃ l, get_legal_moves_for_square startOracle ⟨[]⟩ "e4" = Except.ok l) ∧
    get_legal_moves_for_square startOracle ⟨[]⟩ "z9" =
      Except.error "ValueError: invalid square name" :=
  ⟨(getLegalMoves_total_on_squares startOracle ⟨[]⟩ "e4").1 (by decide),
   (getLegalMoves_total_on_squares startOracle ⟨[]⟩ "z9").2 (by decide)⟩

/-- C9: with an empty move history the Undo Move button is a complete
no-op: no error, and the whole session state (position, history,
counter, turn flag, error message) is exactly as before. -/
theorem undo_empty_history_noop :
    ∀ (O : Oracle) (st : SessionState), st.board.stack = [] → step O st Event.undo = st := by
  intro O st h
  simp [step, undo_handler, h]

/-- Witness for C9: undo immediately after reset leaves the fresh
session unchanged. -/
theorem undo_empty_history_noop_witness :
    step startOracle (step startOracle initialSession Event.reset) Event.undo =
      step startOracle initialSession Event.reset :=
  undo_empty_history_noop startOracle (step startOracle initialSession Event.reset) (by rfl)

/-- The session invariant of C5: the move counter equals the length of
the move history. -/
abbrev counterInvariant (st : SessionState) : Prop :=
  st.move_count = (st.board.stack.length : Int)

/-- C5: the invariant `move_count = |history|` holds initially, is
preserved by every operation (reset, undo, drag move, manual move,
engine move), and therefore holds in every reachable session state. -/
theorem move_counter_matches_history :
    counterInvariant initialSession ∧
    (∀ (O : Oracle) (st : SessionState) (e : Event),
      counterInvariant st → counterInvariant (step O st e)) ∧
    (∀ (O : Oracle) (es : List Event), counterInvariant (es.foldl (step O) initialSession)) := by
  have hpres : ∀ (O : Oracle) (st : SessionState) (e : Event),
      counterInvariant st → counterInvariant (step O st e) := by
    intro O st e h
    cases e with
    | reset => simp [step, initialSession, counterInvariant]
    | undo =>
      simp only [step, undo_handler]
      split
      · exact h
      · rename_i hne
        have hlen : st.board.stack.length ≠ 0 := fun h0 => hne (List.length_eq_zero.mp h0)
        simp only [counterInvariant, Board.pop, List.length_dropLast] at h ⊢
        omega
    | drag s =>
      simp only [step]
      split
      · exact h
      unfold drag_move_handling
      split
      · exact h
      split
      · exact h
      split
      · simpa [counterInvariant] using h
      split
      · simp only [counterInvariant, Board.push, List.length_append, List.length_cons,
          List.length_nil] at h ⊢
        omega
      · simpa [counterInvariant] using h
    | manual s =>
      simp only [step]
      split
      · exact h
      unfold manual_move_handling
      split
      · exact h
      split
      · simpa [counterInvariant] using h
      split
      · simp only [counterInvariant, Board.push, List.length_append, List.length_cons,
          List.length_nil] at h ⊢
        omega
      · simpa [counterInvariant] using h
    | ai b =>
      simp only [step]
      split
      · exact h
      unfold ai_move_block
      split
      · exact h
      split
      · simpa [counterInvariant] using h
      split
      · simp only [counterInvariant, Board.push, List.length_append, List.length_cons,
          List.length_nil] at h ⊢
        omega
      · simpa [counterInvariant] using h
  refine ⟨by simp [initialSession, counterInvariant], hpres, ?_⟩
  intro O es
  have : ∀ (st : SessionState), counterInvariant st →
      counterInvariant (es.foldl (step O) st) := by
    induction es with
    | nil => intro st h; simpa using h
    | cons e es ih =>
      intro st h
      simpa using ih (step O st e) (hpres O st e h)
  exact this initialSession (by simp [initialSession, counterInvariant])

/-- Witness for C5: applying the preservation part to a concrete
session (one move played, counter 1) and an undo. -/
theorem move_counter_matches_history_witness :
    counterInvariant (step startOracle ⟨⟨[mE2E4]⟩, false, none, 1⟩ Event.undo) :=
  move_counter_matches_history.2.1 startOracle ⟨⟨[mE2E4]⟩, false, none, 1⟩ Event.undo (by decide)

/-- Every string accepted by `Move.from_uci` has at least four
characters (the null move and the drop branch have exactly four, the
main branch four or five). -/
theorem from_uci_ok_length {s : String} {m : Move} (h : Move.from_uci s = Except.ok m) :
    4 ≤ s.data.length := by
  unfold Move.from_uci at h
  split at h
  · rename_i h0
    subst h0
    decide
  · split at h
    · rename_i hc
      omega
    · split at h
      · rename_i hc
        exact hc.1
      · exact absurd h (by simp)

/-- A string accepted by `Move.from_uci` is non-empty. -/
theorem from_uci_ok_ne_empty {s : String} {m : Move} (h : Move.from_uci s = Except.ok m) :
    s ≠ "" := by
  intro he
  subst he
  have := from_uci_ok_length h
  simp at this

/-- A legal move from an origin square contributes its destination name
to the spec-side index entry for that origin. -/
theorem mem_specLegalDestinations_of_legal (O : Oracle) (b : Board) {m : Move}
    (hm : m ∈ Board.legal_moves O b) :
    square_name m.to_square ∈ specLegalDestinations O b m.from_square := by
  simp only [specLegalDestinations, List.mem_map, List.mem_filter, decide_eq_true_eq]
  exact ⟨m, ⟨hm, rfl⟩, rfl⟩

/-- C7: the AI move block parses the engine suggestion and re-validates
it against `board.legal_moves` exactly as the human input paths do; an
illegal suggestion is never applied — the session state (position,
history, everything) is unchanged and the engine-fault error
"Invalid AI move!" is surfaced; a legal suggestion is pushed; and the
block changes the board exactly when the human manual path would apply
the same suggestion. -/
theorem ai_move_revalidated :
    ∀ (O : Oracle) (st : SessionState) (bm : String) (m : Move),
      Move.from_uci bm = Except.ok m →
      (m ∉ Board.legal_moves O st.board →
        (ai_move_block O st (some bm)).1 = st ∧
        (ai_move_block O st (some bm)).2 = some "Invalid AI move!") ∧
      (m ∈ Board.legal_moves O st.board →
        (ai_move_block O st (some bm)).1.board = st.board.push m ∧
        (ai_move_block O st (some bm)).2 = none) ∧
      (ai_move_block O st (some bm)).1.board = (manual_move_handling O st bm).1.board := by
  intro O st bm m h
  have hne : bm ≠ "" := from_uci_ok_ne_empty h
  refine ⟨?_, ?_, ?_⟩
  · intro hnl
    simp [ai_move_block, h, hnl]
  · intro hl
    simp [ai_move_block, h, hl]
  · by_cases hl : m ∈ Board.legal_moves O st.board
    · simp [ai_move_block, manual_move_handling, h, hl, hne]
    · simp [ai_move_block, manual_move_handling, h, hl, hne]

/-- Witness for C7 after 1. e2e4: the illegal suggestion e7e4 is
rejected with the engine-fault error and leaves the session unchanged,
while the legal suggestion e7e5 is applied. -/
theorem ai_move_revalidated_witness :
    ((ai_move_block startOracle ⟨⟨[mE2E4]⟩, false, none, 1⟩ (some "e7e4")).1 =
        ⟨⟨[mE2E4]⟩, false, none, 1⟩ ∧
      (ai_move_block startOracle ⟨⟨[mE2E4]⟩, false, none, 1⟩ (some "e7e4")).2 =
        some "Invalid AI move!") ∧
    (ai_move_block startOracle ⟨⟨[mE2E4]⟩, false, none, 1⟩ (some "e7e5")).1.board =
      Board.push ⟨[mE2E4]⟩ ⟨52, 36, none, none⟩ :=
  ⟨(ai_move_revalidated startOracle ⟨⟨[mE2E4]⟩, false, none, 1⟩ "e7e4" ⟨52, 28, none, none⟩
      (by rfl)).1 (by decide),
   ((ai_move_revalidated startOracle ⟨⟨[mE2E4]⟩, false, none, 1⟩ "e7e5" ⟨52, 36, none, none⟩
      (by rfl)).2.1 (by decide)).1⟩

/-- Counterexample to C2: in the promotion position (white pawn a7,
FEN `8/P7/8/8/8/8/8/k6K w`), resolving the bare pair a7a8 does NOT
yield a queen promotion: `from_uci` parses it with no promotion piece,
the promotionless move is not legal, and both input paths reject it
(the queen promotion a7a8q being legal all along).  The promotion
variable read at app.py line 366 is never used. -/
theorem no_auto_queen_counterexample :
    Move.from_uci "a7a8" = Except.ok ⟨48, 56, none, none⟩ ∧
    (⟨48, 56, some 5, none⟩ : Move) ∈ Board.legal_moves promoOracle ⟨[]⟩ ∧
    (manual_move_handling promoOracle initialSession "a7a8").1 = initialSession ∧
    (manual_move_handling promoOracle initialSession "a7a8").2 = some "Illegal move!" ∧
    (drag_move_handling promoOracle initialSession "a7a8").1.board = (⟨[]⟩ : Board) ∧
    (drag_move_handling promoOracle initialSession "a7a8").2 = some "Illegal move: a7a8" := by
  refine ⟨by rfl, by decide, ?_, ?_, ?_, ?_⟩ <;> rfl

/-- C2 amended: an explicit promotion suffix is used verbatim — the
parsed move (promotion letter included) is pushed when legal; but a
bare origin-destination pair whose promotionless move is not legal
(as for a pawn on the last rank) is rejected as an illegal move on both
input paths, never auto-queened. -/
theorem promotion_suffix_verbatim_no_auto_queen :
    ∀ (O : Oracle) (st : SessionState) (s : String) (m : Move),
      Move.from_uci s = Except.ok m →
      (m ∈ Board.legal_moves O st.board →
        (manual_move_handling O st s).1.board = st.board.push m ∧
        (drag_move_handling O st s).1.board = st.board.push m) ∧
      (m.promotion = none → m ∉ Board.legal_moves O st.board →
        (manual_move_handling O st s).1.board = st.board ∧
        (manual_move_handling O st s).2 = some "Illegal move!" ∧
        (drag_move_handling O st s).1.board = st.board ∧
        (drag_move_handling O st s).2 = some ("Illegal move: " ++ s)) := by
  intro O st s m h
  have hne : s ≠ "" := from_uci_ok_ne_empty h
  have hlen : ¬ s.data.length < 4 := not_lt.mpr (from_uci_ok_length h)
  have hlen2 : ¬ s.length < 4 := hlen
  constructor
  · intro hl
    constructor
    · simp [manual_move_handling, hne, h, hl]
    · simp [drag_move_handling, hne, hlen, hlen2, h, hl]
  · intro _ hnl
    refine ⟨?_, ?_, ?_, ?_⟩
    · simp [manual_move_handling, hne, h, hnl]
    · simp [manual_move_handling, hne, h, hnl]
    · simp [drag_move_handling, hne, hlen, hlen2, h, hnl]
    · simp [drag_move_handling, hne, hlen, hlen2, h, hnl]

/-- Witness for the amended C2: in the promotion position the suffixed
input a7a8n is applied verbatim as a knight promotion (piece type 2),
and the bare a7a8 is rejected on the drag path. -/
theorem promotion_suffix_verbatim_no_auto_queen_witness :
    (manual_move_handling promoOracle ⟨⟨[]⟩, true, none, 0⟩ "a7a8n").1.board =
      Board.push ⟨[]⟩ ⟨48, 56, some 2, none⟩ ∧
    (drag_move_handling promoOracle ⟨⟨[]⟩, true, none, 0⟩ "a7b8").1.board = (⟨[]⟩ : Board) :=
  ⟨((promotion_suffix_verbatim_no_auto_queen promoOracle ⟨⟨[]⟩, true, none, 0⟩ "a7a8n"
      ⟨48, 56, some 2, none⟩ (by rfl)).1 (by decide)).1,
   ((promotion_suffix_verbatim_no_auto_queen promoOracle ⟨⟨[]⟩, true, none, 0⟩ "a7b8"
      ⟨48, 57, none, none⟩ (by rfl)).2 (by rfl) (by decide)).2.2.1⟩

/-- Counterexample to C3: the input e2e4q carries a promotion suffix
although e4 is not a last rank, yet it parses successfully and is
classified as an ILLEGAL MOVE (not a parse error) by both paths; and
the drag path silently ignores the wrong-length string e2e (no error at
all, state unchanged). -/
theorem malformed_input_counterexample :
    Move.from_uci "e2e4q" = Except.ok ⟨12, 28, some 5, none⟩ ∧
    (manual_move_handling startOracle initialSession "e2e4q").2 = some "Illegal move!" ∧
    (drag_move_handling startOracle initialSession "e2e4q").1.last_error =
      some "Illegal move: e2e4q" ∧
    (drag_move_handling startOracle initialSession "e2e").1 = initialSession ∧
    (drag_move_handling startOracle initialSession "e2e").2 = none := by
  refine ⟨by rfl, ?_, ?_, ?_, ?_⟩ <;> rfl

/-- C3 amended: inputs on which `Move.from_uci` raises — wrong-length
strings (of length at least 4 on the drag path) and invalid square
names — are rejected with the parse-error outcome, distinct from the
illegal-move outcome and never silently dropped; but a drag string
shorter than four characters is silently ignored (no error of any
kind), and a promotion suffix on a non-last-rank destination parses
successfully, so such input is surfaced as an illegal move, not a
parse error. -/
theorem parse_errors_surfaced_distinctly :
    ∀ (O : Oracle) (st : SessionState) (s e : String),
      Move.from_uci s = Except.error e →
      (s ≠ "" →
        (manual_move_handling O st s).1 = st ∧
        (manual_move_handling O st s).2 =
          some "Invalid move format! Use format like e2e4 or e7e8q") ∧
      (4 ≤ s.data.length →
        (drag_move_handling O st s).1.board = st.board ∧
        (drag_move_handling O st s).1.last_error = some ("Invalid move format: " ++ s) ∧
        (drag_move_handling O st s).2 = some ("Invalid move format: " ++ s)) ∧
      (s ≠ "" → s.data.length < 4 →
        (drag_move_handling O st s).1 = st ∧ (drag_move_handling O st s).2 = none) := by
  intro O st s e h
  refine ⟨?_, ?_, ?_⟩
  · intro hne
    constructor <;> simp [manual_move_handling, hne, h]
  · intro hlen
    have hne : s ≠ "" := by
      intro he
      subst he
      simp at hlen
    have hlen2 : ¬ s.length < 4 := not_lt.mpr hlen
    refine ⟨?_, ?_, ?_⟩ <;> simp [drag_move_handling, hne, hlen2, h]
  · intro hne hlen
    have hlen2 : s.length < 4 := hlen
    constructor <;> simp [drag_move_handling, hne, hlen2]

/-- Witness for the amended C3: the invalid square name e9 makes e9e4
fail with the parse-error outcome on both paths, and the length-2 drag
string e2 is silently ignored. -/
theorem parse_errors_surfaced_distinctly_witness :
    ((manual_move_handling startOracle initialSession "e9e4").2 =
        some "Invalid move format! Use format like e2e4 or e7e8q") ∧
    (drag_move_handling startOracle initialSession "e9e4").1.last_error =
      some "Invalid move format: e9e4" ∧
    (drag_move_handling startOracle initialSession "e2").1 = initialSession :=
  ⟨((parse_errors_surfaced_distinctly startOracle initialSession "e9e4" "invalid uci: e9e4"
      (by rfl)).1 (by decide)).2,
   ((parse_errors_surfaced_distinctly startOracle initialSession "e9e4" "invalid uci: e9e4"
      (by rfl)).2.1 (by decide)).2.1,
   ((parse_errors_surfaced_distinctly startOracle initialSession "e2"
      "expected uci string to be of length 4 or 5: e2" (by rfl)).2.2 (by decide) (by decide)).1⟩

/-- Counterexample to C4: on the manual path an illegal attempt (e2e5
from the starting position, well-formed, destination not among the
index destinations for e2) is rejected with the fixed message
"Illegal move!" which does not carry the attempted move text, and the
stored error message of a previous attempt is NOT replaced. -/
theorem illegal_move_error_counterexample :
    Move.from_uci "e2e5" = Except.ok ⟨12, 36, none, none⟩ ∧
    "e5" ∉ specLegalDestinations startOracle ⟨[]⟩ 12 ∧
    (manual_move_handling startOracle ⟨⟨[]⟩, true, some "old error", 0⟩ "e2e5").1 =
      ⟨⟨[]⟩, true, some "old error", 0⟩ ∧
    (manual_move_handling startOracle ⟨⟨[]⟩, true, some "old error", 0⟩ "e2e5").2 =
      some "Illegal move!" ∧
    ¬ List.IsInfix "e2e5".data "Illegal move!".data := by
  refine ⟨by rfl, by decide, by rfl, by rfl, by decide⟩

/-- C4 amended: for a well-formed input whose destination is not among
the Legal-Move Index destinations for its origin, the drag path behaves
as the claim states — illegal-move error carrying the attempted move
text, board unchanged, the single stored error message replaced — while
the manual path also rejects without applying but displays a fixed
"Illegal move!" that does not carry the move text and leaves the stored
error message untouched. -/
theorem illegal_move_rejection :
    ∀ (O : Oracle) (st : SessionState) (s : String) (m : Move),
      Move.from_uci s = Except.ok m →
      square_name m.to_square ∉ specLegalDestinations O st.board m.from_square →
      ((drag_move_handling O st s).1 =
        ⟨st.board, st.player_turn, some ("Illegal move: " ++ s), st.move_count⟩ ∧
       (drag_move_handling O st s).2 = some ("Illegal move: " ++ s) ∧
       List.IsInfix s.data ("Illegal move: " ++ s).data) ∧
      ((manual_move_handling O st s).1 = st ∧
       (manual_move_handling O st s).2 = some "Illegal move!") := by
  intro O st s m h hd
  have hnl : m ∉ Board.legal_moves O st.board := fun hl =>
    hd (mem_specLegalDestinations_of_legal O st.board hl)
  have hne : s ≠ "" := from_uci_ok_ne_empty h
  have hlen : ¬ s.data.length < 4 := not_lt.mpr (from_uci_ok_length h)
  have hlen2 : ¬ s.length < 4 := hlen
  refine ⟨⟨?_, ?_, ?_⟩, ?_, ?_⟩
  · simp [drag_move_handling, hne, hlen2, h, hnl]
  · simp [drag_move_handling, hne, hlen2, h, hnl]
  · exact ⟨"Illegal move: ".data, [], by simp⟩
  · simp [manual_move_handling, hne, h, hnl]
  · simp [manual_move_handling, hne, h, hnl]

/-- Witness for the amended C4: the attempt e2e5 from the starting
position (destination e5 not among the index destinations of e2). -/
theorem illegal_move_rejection_witness :
    (drag_move_handling startOracle initialSession "e2e5").1 =
      ⟨⟨[]⟩, true, some "Illegal move: e2e5", 0⟩ ∧
    (manual_move_handling startOracle initialSession "e2e5").1 = initialSession :=
  ⟨(illegal_move_rejection startOracle initialSession "e2e5" ⟨12, 36, none, none⟩
      (by rfl) (by decide)).1.1,
   (illegal_move_rejection startOracle initialSession "e2e5" ⟨12, 36, none, none⟩
      (by rfl) (by decide)).2.1⟩

/-- Counterexample to C6: a successful undo (history shrinks) and a
successful engine move (history grows) both leave a stale error message
from an earlier attempt in place — neither transition clears
`last_error`. -/
theorem error_not_cleared_counterexample :
    (step startOracle ⟨⟨[mE2E4]⟩, false, some "Illegal move: e2e5", 1⟩ Event.undo).board.stack
        = [] ∧
    (step startOracle ⟨⟨[mE2E4]⟩, false, some "Illegal move: e2e5", 1⟩ Event.undo).last_error
        = some "Illegal move: e2e5" ∧
    (ai_move_block startOracle ⟨⟨[mE2E4]⟩, false, some "Illegal move: e2e5", 1⟩
        (some "e7e5")).1.board.stack = [mE2E4, ⟨52, 36, none, none⟩] ∧
    (ai_move_block startOracle ⟨⟨[mE2E4]⟩, false, some "Illegal move: e2e5", 1⟩
        (some "e7e5")).1.last_error = some "Illegal move: e2e5" := by
  refine ⟨by rfl, by rfl, by rfl, by rfl⟩

/-- C6 amended: `last_error` is cleared by reset and by every successful
human move on the drag and manual paths, but the AI move block and the
undo handler never touch it, so an error can survive a successful
engine move or undo. -/
theorem error_cleared_on_human_success_only :
    (∀ (O : Oracle) (st : SessionState), (step O st Event.reset).last_error = none) ∧
    (∀ (O : Oracle) (st : SessionState) (s : String) (m : Move),
      Move.from_uci s = Except.ok m → m ∈ Board.legal_moves O st.board →
      (drag_move_handling O st s).1.last_error = none ∧
      (manual_move_handling O st s).1.last_error = none) ∧
    (∀ (O : Oracle) (st : SessionState) (b : Option String),
      (ai_move_block O st b).1.last_error = st.last_error) ∧
    (∀ st : SessionState, (undo_handler st).last_error = st.last_error) := by
  refine ⟨fun O st => rfl, ?_, ?_, ?_⟩
  · intro O st s m h hl
    have hne : s ≠ "" := from_uci_ok_ne_empty h
    have hlen2 : ¬ s.length < 4 := not_lt.mpr (from_uci_ok_length h)
    constructor
    · simp [drag_move_handling, hne, hlen2, h, hl]
    · simp [manual_move_handling, hne, h, hl]
  · intro O st b
    unfold ai_move_block
    split
    · rfl
    split
    · rfl
    split <;> rfl
  · intro st
    unfold undo_handler
    split <;> rfl

/-- Witness for the amended C6: a successful drag move clears a stale
error; the same engine move applied by the AI block does not. -/
theorem error_cleared_on_human_success_only_witness :
    (drag_move_handling startOracle ⟨⟨[]⟩, true, some "old error", 0⟩ "e2e4").1.last_error
        = none ∧
    (ai_move_block startOracle ⟨⟨[]⟩, true, some "old error", 0⟩ (some "e2e4")).1.last_error
        = some "old error" :=
  ⟨(error_cleared_on_human_success_only.2.1 startOracle ⟨⟨[]⟩, true, some "old error", 0⟩
      "e2e4" mE2E4 (by rfl) (by decide)).1,
   error_cleared_on_human_success_only.2.2.1 startOracle ⟨⟨[]⟩, true, some "old error", 0⟩
      (some "e2e4")⟩

/-- Counterexample to C8: at the fools-mate checkmate the position is
terminal, yet the Undo Move button still acts and leaves a
non-terminal position — reset is not the only operation that exits
GameOver. -/
theorem gameover_undo_exit_counterexample :
    Board.is_game_over foolsOracle ⟨foolsLine⟩ = true ∧
    (step foolsOracle ⟨⟨foolsLine⟩, true, none, 4⟩ Event.undo).board.stack ≠ foolsLine ∧
    Board.is_game_over foolsOracle
      (step foolsOracle ⟨⟨foolsLine⟩, true, none, 4⟩ Event.undo).board = false := by
  refine ⟨by rfl, by decide, by rfl⟩

/-- C8 amended: on a terminal position every move event — drag, manual
or engine — is ignored (the session is left exactly as it was, no move
is applied) and reset exits to the fresh session; but the Undo Move
button is not blocked: with a non-empty history it still pops the last
move, so undo can also exit GameOver. -/
theorem gameover_blocks_all_moves :
    ∀ (O : Oracle) (st : SessionState),
      Board.is_game_over O st.board = true →
      (∀ s, step O st (Event.drag s) = st) ∧
      (∀ s, step O st (Event.manual s) = st) ∧
      (∀ b, step O st (Event.ai b) = st) ∧
      step O st Event.reset = initialSession ∧
      (st.board.stack ≠ [] → (step O st Event.undo).board = st.board.pop) := by
  intro O st h
  refine ⟨fun s => by simp [step, h], fun s => by simp [step, h], fun b => by simp [step, h],
    rfl, ?_⟩
  intro hne
  simp [step, undo_handler, hne]

/-- Witness for the amended C8 at the fools-mate checkmate: a manual
attempt and an engine suggestion are ignored, and undo pops the mating
move. -/
theorem gameover_blocks_all_moves_witness :
    (step foolsOracle ⟨⟨foolsLine⟩, true, none, 4⟩ (Event.manual "h4e1") =
        ⟨⟨foolsLine⟩, true, none, 4⟩) ∧
    (step foolsOracle ⟨⟨foolsLine⟩, true, none, 4⟩ (Event.ai (some "h4e1")) =
        ⟨⟨foolsLine⟩, true, none, 4⟩) ∧
    (step foolsOracle ⟨⟨foolsLine⟩, true, none, 4⟩ Event.undo).board =
        Board.pop ⟨foolsLine⟩ :=
  ⟨(gameover_blocks_all_moves foolsOracle ⟨⟨foolsLine⟩, true, none, 4⟩ (by rfl)).2.1 "h4e1",
   (gameover_blocks_all_moves foolsOracle ⟨⟨foolsLine⟩, true, none, 4⟩ (by rfl)).2.2.1
      (some "h4e1"),
   (gameover_blocks_all_moves foolsOracle ⟨⟨foolsLine⟩, true, none, 4⟩ (by rfl)).2.2.2.2
      (by decide)⟩

end ChessApp
